import Mathlib

/-!
Verification of the MyChain casino application layer: a shallow embedding of
the transaction types (`crates/types`), the VRF engine (`crates/app/src/vrf.rs`),
the sled-backed storage layer (`crates/storage`), and the ABCI handlers of
`MyChainApp::create_server` (`crates/app/src/lib.rs`): CheckTx, InitChain and
FinalizeBlock.

Byte strings are `List Nat` with entries below 256.  The external
cryptographic primitives (blake3, SHA-256, the fastcrypto ECVRF) are not part
of this repository; they are modelled as injective executable encodings, the
idealisation of a collision-resistant hash / unique-output VRF.  Everything
else is translated directly from the Rust source.
-/

/-- Little-endian byte encoding of a natural number in `w` bytes; models Rust
`u64::to_le_bytes` (with `w = 8`), truncating values at `256 ^ w` the way the
machine integer does. -/
def leBytes : Nat → Nat → List Nat
  | 0, _ => []
  | w + 1, n => n % 256 :: leBytes w (n / 256)

/-- Little-endian byte decoding; models `u64::from_le_bytes` when applied to
eight bytes. -/
def fromLeBytes : List Nat → Nat
  | [] => 0
  | b :: rest => b + 256 * fromLeBytes rest

/-- Executable stand-in for a cryptographic compression function: a base-257
rolling value of the byte string, reduced modulo `2 ^ 128`.  Distinct short
inputs give distinct values, and the concrete digests this development
evaluates are all distinct, which is what the idealisation of collision
resistance is used for. -/
def rollHash (seed : Nat) (input : List Nat) : Nat :=
  input.foldl (fun acc b => (acc * 257 + b % 256 + 1) % 2 ^ 128) seed

/-- Model of the external `blake3::hash` primitive: a deterministic 32-byte
digest combining the rolled content (seed 3) with the input length.  The
development relies only on determinism, the 32-byte width, and the concrete
digests it compares being distinct. -/
def blake3Hash (input : List Nat) : List Nat :=
  leBytes 16 (rollHash 3 input) ++ leBytes 16 input.length

/-- Model of the external SHA-256 primitive (`sha2::Sha256`), with seed 2 so
the two hash families stay apart.  Feeding several `update` calls is
modelled as hashing the concatenation of the pieces. -/
def sha256Hash (input : List Nat) : List Nat :=
  leBytes 16 (rollHash 2 input) ++ leBytes 16 input.length

/-- Lower-case hex digit for a nibble, as produced by the `hex` crate. -/
def hexDigit (n : Nat) : Char :=
  if n < 10 then Char.ofNat (48 + n) else Char.ofNat (87 + n)

/-- `hex::encode`: two lower-case hex characters per byte. -/
def hexEncode (bytes : List Nat) : String :=
  String.mk (bytes.foldr (fun b acc => hexDigit (b / 16 % 16) :: hexDigit (b % 16) :: acc) [])

/-- `TxFlip` from `crates/types/src/lib.rs`: version `u8`, wallet `[u8; 32]`,
amount `u64`, nonce `u64`. -/
structure TxFlip where
  version : Nat
  wallet : List Nat
  amount : Nat
  nonce : Nat
deriving DecidableEq

namespace TxFlip

/-- `TxFlip::to_bytes`: bincode's default configuration writes the fields in
declaration order with fixed-width little-endian integers and no length
prefixes for the `[u8; 32]` array: 1 + 32 + 8 + 8 = 49 bytes. -/
def to_bytes (tx : TxFlip) : List Nat :=
  tx.version % 256 :: (tx.wallet ++ leBytes 8 tx.amount ++ leBytes 8 tx.nonce)

/-- `TxFlip::from_bytes` / `bincode::deserialize::<TxFlip>`: the free
`bincode::deserialize` allows trailing bytes, so decoding succeeds exactly
when at least 49 bytes are present, and reads the first 49. -/
def from_bytes (bytes : List Nat) : Option TxFlip :=
  if bytes.length < 49 then none
  else some
    { version := bytes.headD 0
      wallet := (bytes.drop 1).take 32
      amount := fromLeBytes ((bytes.drop 33).take 8)
      nonce := fromLeBytes ((bytes.drop 41).take 8) }

/-- `TxFlip::hash`: BLAKE3 of the bincode serialization. -/
def hash (tx : TxFlip) : List Nat := blake3Hash tx.to_bytes

end TxFlip

/-- `BetRecord` from `crates/types/src/lib.rs`. -/
structure BetRecord where
  wallet : List Nat
  amount : Nat
  nonce : Nat
  vrf_message : List Nat
  vrf_proof : List Nat
  vrf_output : List Nat
  result : Bool
  height : Nat
  tx_hash : List Nat
deriving DecidableEq

/-- `BetRecord::to_bytes`: bincode writes fields in order; `Vec<u8>` fields are
length-prefixed with a little-endian `u64`, `bool` is one byte. -/
def BetRecord.to_bytes (r : BetRecord) : List Nat :=
  r.wallet ++ leBytes 8 r.amount ++ leBytes 8 r.nonce
    ++ leBytes 8 r.vrf_message.length ++ r.vrf_message
    ++ leBytes 8 r.vrf_proof.length ++ r.vrf_proof
    ++ leBytes 8 r.vrf_output.length ++ r.vrf_output
    ++ [if r.result then 1 else 0]
    ++ leBytes 8 r.height ++ r.tx_hash

/-- Read exactly `n` bytes from the front of the input, failing when fewer are
available (how bincode reads fixed-size fields). -/
def readExact (n : Nat) (bytes : List Nat) : Option (List Nat × List Nat) :=
  if n ≤ bytes.length then some (bytes.take n, bytes.drop n) else none

/-- Read a fixed-width little-endian `u64`. -/
def readLeU64 (bytes : List Nat) : Option (Nat × List Nat) :=
  (readExact 8 bytes).map (fun p => (fromLeBytes p.1, p.2))

/-- Read a bincode `Vec<u8>`: `u64` length followed by that many bytes. -/
def readVec (bytes : List Nat) : Option (List Nat × List Nat) :=
  match readLeU64 bytes with
  | none => none
  | some (n, rest) => readExact n rest

/-- Read a bincode `bool`: one byte that must be 0 or 1. -/
def readBool (bytes : List Nat) : Option (Bool × List Nat) :=
  match bytes with
  | 0 :: rest => some (false, rest)
  | 1 :: rest => some (true, rest)
  | _ => none

/-- `BetRecord::from_bytes` / `bincode::deserialize::<BetRecord>`: the fields
in declaration order; trailing bytes are permitted by the free
`bincode::deserialize`. -/
def BetRecord.from_bytes (bytes : List Nat) : Option BetRecord :=
  match readExact 32 bytes with
  | none => none
  | some (wallet, r1) =>
  match readLeU64 r1 with
  | none => none
  | some (amount, r2) =>
  match readLeU64 r2 with
  | none => none
  | some (nonce, r3) =>
  match readVec r3 with
  | none => none
  | some (vrf_message, r4) =>
  match readVec r4 with
  | none => none
  | some (vrf_proof, r5) =>
  match readVec r5 with
  | none => none
  | some (vrf_output, r6) =>
  match readBool r6 with
  | none => none
  | some (result, r7) =>
  match readLeU64 r7 with
  | none => none
  | some (height, r8) =>
  match readExact 32 r8 with
  | none => none
  | some (tx_hash, _) =>
    some { wallet, amount, nonce, vrf_message, vrf_proof, vrf_output, result, height, tx_hash }

/-- Well-formedness of a `BetRecord` as it exists in the Rust program: the
fixed-size arrays have 32 bytes and the `u64` fields fit in 64 bits.  (List
lengths are below `2 ^ 64` for any byte string a real process can hold.) -/
def BetRecord.wf (r : BetRecord) : Prop :=
  r.wallet.length = 32 ∧ r.tx_hash.length = 32 ∧
    r.amount < 2 ^ 64 ∧ r.nonce < 2 ^ 64 ∧ r.height < 2 ^ 64 ∧
    r.vrf_message.length < 2 ^ 64 ∧ r.vrf_proof.length < 2 ^ 64 ∧
    r.vrf_output.length < 2 ^ 64

instance : DecidablePred BetRecord.wf := fun r => by
  unfold BetRecord.wf; infer_instance

instance {ε α : Type} [DecidableEq ε] [DecidableEq α] : DecidableEq (Except ε α)
  | .error x, .error y =>
      if h : x = y then isTrue (by rw [h]) else isFalse (by simp [h])
  | .error _, .ok _ => isFalse (by simp)
  | .ok _, .error _ => isFalse (by simp)
  | .ok x, .ok y =>
      if h : x = y then isTrue (by rw [h]) else isFalse (by simp [h])

/-- Modelled from the spec: the external fastcrypto `ECVRFKeyPair`.  The
missing piece is the ECVRF group arithmetic; per the spec, `Prove` is
deterministic for a fixed (key, message) pair and distinct keys or messages
yield distinct proofs and outputs, so the keypair is modelled by its secret
scalar alone. -/
structure ECVRFKeyPair where
  sk : Nat
deriving DecidableEq

/-- Modelled from the spec: `keypair.output(message)` of fastcrypto ECVRF,
returning the pair (output, proof).  Both are injective encodings of the
(secret key, message) pair, reflecting the ideal VRF uniqueness and
determinism properties the spec states for `Prove`. -/
def ECVRFKeyPair.output (kp : ECVRFKeyPair) (message : List Nat) : List Nat × List Nat :=
  (0 :: kp.sk :: message, 1 :: kp.sk :: message)

/-- `VrfEngine` from `crates/app/src/vrf.rs`. -/
structure VrfEngine where
  keypair : ECVRFKeyPair
deriving DecidableEq

namespace VrfEngine

/-- `VrfEngine::generate`: wraps a freshly sampled keypair.  The thread-rng
sample is an input of the model, passed explicitly by every caller that the
Rust code has draw one. -/
def generate (fresh : ECVRFKeyPair) : VrfEngine := ⟨fresh⟩

/-- `VrfEngine::public_key`: the source returns the fixed placeholder
`vec![1u8; 32]`, independent of the actual keypair. -/
def public_key (_e : VrfEngine) : List Nat := List.replicate 32 1

/-- `VrfEngine::private_key`: fixed placeholder `vec![2u8; 32]`. -/
def private_key (_e : VrfEngine) : List Nat := List.replicate 32 2

/-- `VrfEngine::prove`: `(output, proof)` from `keypair.output(message)`; the
Debug-format serialization of the proof is modelled by the injective proof
encoding itself. -/
def prove (e : VrfEngine) (message : List Nat) : List Nat × List Nat :=
  ((e.keypair.output message).1, (e.keypair.output message).2)

/-- `VrfEngine::verify` from `crates/app/src/vrf.rs`: the source is a
placeholder that ignores all four arguments and unconditionally returns
`Ok(true)`. -/
def verify (_public_key _message _proof_bytes _expected_output : List Nat) :
    Except String Bool :=
  Except.ok true

/-- ASCII bytes of the domain tag `"MYCHAIN:VRF:v1"`. -/
def vrfDomainTag : List Nat := [77, 89, 67, 72, 65, 73, 78, 58, 86, 82, 70, 58, 118, 49]

/-- `VrfEngine::compute_flip_message`:
`SHA256("MYCHAIN:VRF:v1" || chain_id || height_le || block_random || tx_hash || wallet || nonce_le)`. -/
def compute_flip_message (chain_id : List Nat) (height : Nat)
    (block_random tx_hash wallet : List Nat) (nonce : Nat) : List Nat :=
  sha256Hash (vrfDomainTag ++ chain_id ++ leBytes 8 height ++ block_random
    ++ tx_hash ++ wallet ++ leBytes 8 nonce)

/-- `VrfEngine::derive_flip_result`: `blake3(output)[0] & 1 == 1`. -/
def derive_flip_result (vrf_output : List Nat) : Bool :=
  (blake3Hash vrf_output).headD 0 % 2 == 1

/-- `VrfEngine::compute_block_random`:
`blake3(prev_block_hash || prev_vrf_accum)`. -/
def compute_block_random (prev_block_hash prev_vrf_accum : List Nat) : List Nat :=
  blake3Hash (prev_block_hash ++ prev_vrf_accum)

/-- `VrfEngine::process_flip`: message, then `(output, proof) = prove`, then
the flip bit; returns `(message, proof, output, result)`. -/
def process_flip (e : VrfEngine) (chain_id : List Nat) (height : Nat)
    (block_random tx_hash wallet : List Nat) (nonce : Nat) :
    List Nat × List Nat × List Nat × Bool :=
  let message := compute_flip_message chain_id height block_random tx_hash wallet nonce
  let op := e.prove message
  (message, op.2, op.1, derive_flip_result op.1)

end VrfEngine

/-- The sled database as seen through the storage layer: a value per
(tree name, key) pair.  All keys written by this program are strings. -/
abbrev Db : Type := String → String → Option (List Nat)

/-- A freshly opened empty database. -/
def emptyDb : Db := fun _ _ => none

/-- A single `sled` insert. -/
def Db.insert (db : Db) (tree key : String) (value : List Nat) : Db :=
  fun t k => if t = tree ∧ k = key then some value else db t k

/-- `StorageBatch` from `crates/storage/src/lib.rs`: staged inserts
(tree name, key, value) in staging order. -/
abbrev StorageBatch : Type := List (String × String × List Nat)

namespace Storage

/-- `Storage::get_last_height`: `meta/last_height` as little-endian `u64`;
absent key means genesis height 0; a value that is not 8 bytes is the
"Invalid height format" error. -/
def get_last_height (db : Db) : Except String Nat :=
  match db "meta" "last_height" with
  | some bytes =>
      if bytes.length = 8 then Except.ok (fromLeBytes bytes)
      else Except.error "Invalid height format"
  | none => Except.ok 0

/-- `Storage::set_last_height`: stages `meta/last_height`. -/
def set_last_height (height : Nat) (batch : StorageBatch) : StorageBatch :=
  batch ++ [("meta", "last_height", leBytes 8 height)]

/-- `Storage::get_vrf_public_key`: reads `app/vrf_pk`. -/
def get_vrf_public_key (db : Db) : Option (List Nat) := db "app" "vrf_pk"

/-- `Storage::set_vrf_public_key`: stages `app/vrf_pk`. -/
def set_vrf_public_key (vrf_pk : List Nat) (batch : StorageBatch) : StorageBatch :=
  batch ++ [("app", "vrf_pk", vrf_pk)]

/-- The key under which a bet is stored: `"bets/" ++ hex(tx_hash)` in tree
`app`. -/
def betKey (tx_hash : List Nat) : String := "bets/" ++ hexEncode tx_hash

/-- `Storage::store_bet`: stages the bincode-serialized record under
`betKey`. -/
def store_bet (tx_hash : List Nat) (bet : BetRecord) (batch : StorageBatch) : StorageBatch :=
  batch ++ [("app", betKey tx_hash, bet.to_bytes)]

/-- `Storage::get_bet`: point read plus bincode decode; an absent key is
`Ok(None)`, a decode failure is an `Err`. -/
def get_bet (db : Db) (tx_hash : List Nat) : Except String (Option BetRecord) :=
  match db "app" (betKey tx_hash) with
  | some bytes =>
      match BetRecord.from_bytes bytes with
      | some bet => Except.ok (some bet)
      | none => Except.error "bincode decode failure"
  | none => Except.ok none

/-- `Storage::store_app_hash`: stages `state/app_hash/{height}` (decimal
height in the key). -/
def store_app_hash (height : Nat) (app_hash : List Nat) (batch : StorageBatch) : StorageBatch :=
  batch ++ [("state", "app_hash/" ++ toString height, app_hash)]

/-- `Storage::get_app_hash`. -/
def get_app_hash (db : Db) (height : Nat) : Option (List Nat) :=
  db "state" ("app_hash/" ++ toString height)

/-- `Storage::store_tx_height`: stages `tx/{hex(tx_hash)}`. -/
def store_tx_height (tx_hash : List Nat) (height : Nat) (batch : StorageBatch) : StorageBatch :=
  batch ++ [("tx", hexEncode tx_hash, leBytes 8 height)]

/-- `Storage::apply_batch`: the Rust code groups the staged inserts by tree
and applies one sled batch per tree.  Grouping preserves the staging order
within each tree, and inserts to different trees touch disjoint
(tree, key) cells, so the resulting database equals applying the staged
inserts in their original order, which is how the model states it. -/
def apply_batch (db : Db) (batch : StorageBatch) : Db :=
  batch.foldl (fun d op => d.insert op.1 op.2.1 op.2.2) db

/-- `Storage::compute_app_hash`: `blake3(height_le || vrf_pk)` where the
public key is read from the committed database and contributes nothing when
absent.  No bet record, block seed, or other state enters the digest. -/
def compute_app_hash (db : Db) (height : Nat) : List Nat :=
  blake3Hash (leBytes 8 height ++ (get_vrf_public_key db).getD [])

end Storage

/-- ASCII bytes of the chain id `"mychain"` that `FinalizeBlock` passes to
`process_flip`. -/
def mychainChainId : List Nat := [109, 121, 99, 104, 97, 105, 110]

/-- `MyChainApp::process_flip` (`crates/app/src/lib.rs`): hashes the
transaction, takes `height.to_le_bytes()` as the block randomness
("Simplified for POC" in the source), runs the VRF pipeline, and assembles
the `BetRecord`. -/
def MyChainApp.process_flip (tx : TxFlip) (height : Nat) (vrf_engine : VrfEngine)
    (chain_id : List Nat) : BetRecord :=
  let tx_hash := tx.hash
  let block_random := leBytes 8 height
  let fr := vrf_engine.process_flip chain_id height block_random tx_hash tx.wallet tx.nonce
  { wallet := tx.wallet, amount := tx.amount, nonce := tx.nonce,
    vrf_message := fr.1, vrf_proof := fr.2.1, vrf_output := fr.2.2.1,
    result := fr.2.2.2, height := height, tx_hash := tx_hash }

/-- Result of the mempool `CheckTx` handler. -/
structure CheckTxResult where
  code : Nat
  log : String
deriving DecidableEq

/-- The `CheckTx` arm of the mempool service in `MyChainApp::create_server`:
decode, reject amount 0 with code 1, reject the all-zero wallet with code 2,
accept with code 0; a decode failure is code 3 (the source appends the
decode error text to the log). -/
def checkTx (tx_bytes : List Nat) : CheckTxResult :=
  match TxFlip.from_bytes tx_bytes with
  | some tx =>
      if tx.amount = 0 then { code := 1, log := "Invalid amount: must be greater than 0" }
      else if tx.wallet = List.replicate 32 0 then
        { code := 2, log := "Invalid wallet: cannot be zero" }
      else { code := 0, log := "Transaction valid" }
  | none => { code := 3, log := "Failed to decode transaction" }

/-- A `flip` event as emitted per settled bet by `FinalizeBlock`. -/
structure Event where
  kind : String
  wallet : String
  amount : String
  result : String
  tx_hash : String
  vrf_proof : String
  vrf_output : String
deriving DecidableEq

/-- The event built for a bet record inside `FinalizeBlock`. -/
def flipEvent (record : BetRecord) : Event :=
  { kind := "flip", wallet := hexEncode record.wallet, amount := toString record.amount,
    result := if record.result then "heads" else "tails",
    tx_hash := hexEncode record.tx_hash, vrf_proof := hexEncode record.vrf_proof,
    vrf_output := hexEncode record.vrf_output }

/-- Post-state and response of the `InitChain` handler. -/
structure InitChainResult where
  db : Db
  app_hash : List Nat

/-- The `InitChain` arm of the consensus service: unconditionally generates a
VRF engine, stages height 0 and the engine's public key, applies the batch,
and responds with a zero app hash.  No existing state is consulted. -/
def initChain (db : Db) (fresh : ECVRFKeyPair) : InitChainResult :=
  let vrf_engine := VrfEngine.generate fresh
  let batch := Storage.set_vrf_public_key vrf_engine.public_key (Storage.set_last_height 0 [])
  { db := Storage.apply_batch db batch, app_hash := List.replicate 32 0 }

/-- Events, staged bet records, app hash and post-state of the
`FinalizeBlock` handler. -/
structure FinalizeResult where
  events : List Event
  records : List BetRecord
  app_hash : List Nat
  db : Db

/-- The `FinalizeBlock` arm of the consensus service: a VRF engine is
generated afresh for the block ("Simplified: generate new each time" in the
source; the stored key only selects the log message).  Each transaction is
bincode-decoded and run through `process_flip`; failures are logged and
skipped.  The records are then staged under `blake3(raw tx bytes)`, the
height pointer is staged, the app hash is computed from the still-committed
database and staged, and the batch is applied. -/
def finalizeBlock (db : Db) (height : Nat) (txs : List (List Nat))
    (fresh : ECVRFKeyPair) : FinalizeResult :=
  let vrf_engine := VrfEngine.generate fresh
  let bet_records := txs.filterMap (fun tx_bytes =>
    (TxFlip.from_bytes tx_bytes).map (fun tx =>
      (tx_bytes, MyChainApp.process_flip tx height vrf_engine mychainChainId)))
  let all_events := bet_records.map (fun p => flipEvent p.2)
  let batch0 := bet_records.foldl (fun b p =>
    Storage.store_tx_height (blake3Hash p.1) height
      (Storage.store_bet (blake3Hash p.1) p.2 b)) []
  let batch1 := Storage.set_last_height height batch0
  let app_hash := Storage.compute_app_hash db height
  let batch2 := Storage.store_app_hash height app_hash batch1
  { events := all_events, records := bet_records.map Prod.snd,
    app_hash := app_hash, db := Storage.apply_batch db batch2 }

/-! Concrete data used to exercise the handlers on specific inputs. -/

/-- The wallet `[1u8; 32]` of the spec's end-to-end scenario 1. -/
def sampleWallet : List Nat := List.replicate 32 1

/-- The transaction `{version: 1, wallet: [1; 32], amount: 1000, nonce: 1}`. -/
def sampleTx : TxFlip := { version := 1, wallet := sampleWallet, amount := 1000, nonce := 1 }

/-- Its 49-byte bincode encoding. -/
def sampleTxBytes : List Nat := sampleTx.to_bytes

/-- The same transaction with amount 0 (the spec's end-to-end scenario 2). -/
def zeroAmountTx : TxFlip := { version := 1, wallet := sampleWallet, amount := 0, nonce := 1 }

/-- A database holding the persisted VRF public key, as left by `InitChain`. -/
def sampleDb : Db := Db.insert emptyDb "app" "vrf_pk" (List.replicate 32 1)

/-- A database with prior chain state: persisted height 5 and a persisted VRF
public key. -/
def midChainDb : Db :=
  Db.insert (Db.insert emptyDb "meta" "last_height" (leBytes 8 5)) "app" "vrf_pk"
    (List.replicate 32 1)

/-- Two distinct concrete ECVRF keypairs (two draws of the thread rng). -/
def kpA : ECVRFKeyPair := ⟨5⟩

/-- See `kpA`. -/
def kpB : ECVRFKeyPair := ⟨6⟩

/-- A concrete well-formed bet record for exercising the store round-trip. -/
def sampleRecord : BetRecord :=
  { wallet := sampleWallet, amount := 1000, nonce := 1, vrf_message := [10, 11],
    vrf_proof := [12], vrf_output := [13, 14, 15], result := true, height := 7,
    tx_hash := List.replicate 32 2 }

/-! Helper lemmas about the byte-level encoders and the store. -/

theorem leBytes_length (w n : Nat) : (leBytes w n).length = w := by
  induction w generalizing n with
  | zero => rfl
  | succ w ih => simp [leBytes, ih]

theorem leBytes_lt (w n : Nat) : ∀ b ∈ leBytes w n, b < 256 := by
  induction w generalizing n with
  | zero => intro b hb; simp [leBytes] at hb
  | succ w ih =>
    intro b hb
    rcases List.mem_cons.mp hb with h | h
    · subst h; exact Nat.mod_lt _ (by norm_num)
    · exact ih (n / 256) b h

theorem fromLeBytes_leBytes (w n : Nat) : fromLeBytes (leBytes w n) = n % 256 ^ w := by
  induction w generalizing n with
  | zero => simp [leBytes, fromLeBytes, Nat.mod_one]
  | succ w ih =>
    simp only [leBytes, fromLeBytes, ih]
    rw [pow_succ', Nat.mod_mul]

theorem leBytes_fromLeBytes (l : List Nat) (h : ∀ b ∈ l, b < 256) :
    leBytes l.length (fromLeBytes l) = l := by
  induction l with
  | nil => rfl
  | cons b rest ih =>
    have hb : b < 256 := h b (List.mem_cons_self b rest)
    simp only [List.length_cons, leBytes, fromLeBytes]
    rw [Nat.add_mul_mod_self_left, Nat.mod_eq_of_lt hb,
      Nat.add_mul_div_left _ _ (by norm_num : (0:Nat) < 256),
      Nat.div_eq_of_lt hb, Nat.zero_add]
    exact congrArg (b :: ·) (ih fun x hx => h x (List.mem_cons_of_mem b hx))

theorem readExact_append_of {n : Nat} {l : List Nat} (h : l.length = n) (rest : List Nat) :
    readExact n (l ++ rest) = some (l, rest) := by
  subst h
  simp [readExact, List.take_left, List.drop_left]

theorem readExact_all {n : Nat} {l : List Nat} (h : l.length = n) :
    readExact n l = some (l, []) := by
  have := readExact_append_of h []
  simpa using this

theorem readLeU64_append {n : Nat} (h : n < 2 ^ 64) (rest : List Nat) :
    readLeU64 (leBytes 8 n ++ rest) = some (n, rest) := by
  simp only [readLeU64, readExact_append_of (leBytes_length 8 n) rest, Option.map_some']
  have : fromLeBytes (leBytes 8 n) = n := by
    rw [fromLeBytes_leBytes]
    exact Nat.mod_eq_of_lt (by norm_num at h ⊢; exact h)
  simp [this]

theorem readVec_append {l : List Nat} (h : l.length < 2 ^ 64) (rest : List Nat) :
    readVec (leBytes 8 l.length ++ (l ++ rest)) = some (l, rest) := by
  simp [readVec, readLeU64_append h (l ++ rest), readExact_append_of rfl rest]

theorem readBool_if (b : Bool) (rest : List Nat) :
    readBool ((if b then 1 else 0) :: rest) = some (b, rest) := by
  cases b <;> simp [readBool]

/-- Serialize/deserialize round-trip for bet records: bincode decoding of the
bincode encoding recovers every field of a well-formed record. -/
theorem BetRecord.from_bytes_to_bytes (r : BetRecord) (h : r.wf) :
    BetRecord.from_bytes r.to_bytes = some r := by
  obtain ⟨hw, ht, ha, hn, hh, hm, hp, ho⟩ := h
  simp only [BetRecord.to_bytes, BetRecord.from_bytes, List.append_assoc,
    List.singleton_append, List.cons_append, List.nil_append,
    readExact_append_of hw, readLeU64_append ha, readLeU64_append hn,
    readVec_append hm, readVec_append hp, readVec_append ho, readBool_if,
    readLeU64_append hh, readExact_all ht]

theorem Db.insert_same (db : Db) (tree key : String) (value : List Nat) :
    Db.insert db tree key value tree key = some value := by
  simp [Db.insert]

/-! Claim theorems. -/

set_option maxRecDepth 40000

/-- Claim C1: refuted by the code.  `Storage::compute_app_hash` hashes only
the height and the persisted VRF public key, so two `FinalizeBlock`
executions at the same height over the same prior state, one writing a bet
record and one writing none, return — and persist under `state/app_hash/1` —
the same digest.  The digest folds in neither the block seed nor the
newly-written `BetRecord` hashes. -/
theorem c1_digest_ignores_bet_records :
    (finalizeBlock sampleDb 1 [sampleTxBytes] kpA).app_hash
        = (finalizeBlock sampleDb 1 [] kpA).app_hash
  ∧ (finalizeBlock sampleDb 1 [sampleTxBytes] kpA).records.length = 1
  ∧ (finalizeBlock sampleDb 1 [] kpA).records.length = 0
  ∧ Storage.get_app_hash (finalizeBlock sampleDb 1 [sampleTxBytes] kpA).db 1
      = Storage.get_app_hash (finalizeBlock sampleDb 1 [] kpA).db 1 := by
  exact ⟨rfl, by decide, rfl, by decide⟩

/-- Claim C3: refuted by the code.  `FinalizeBlock` calls
`VrfEngine::generate()` on every invocation and signs with that fresh key:
two calls on identical state and transactions but different rng draws
produce different bet records (the proof bytes differ), so the proof key is
not the key persisted at genesis.  The persisted public key itself is left
untouched by `FinalizeBlock`. -/
theorem c3_finalize_uses_fresh_keypair :
    (finalizeBlock sampleDb 1 [sampleTxBytes] kpA).records
        ≠ (finalizeBlock sampleDb 1 [sampleTxBytes] kpB).records
  ∧ Storage.get_vrf_public_key (finalizeBlock sampleDb 1 [sampleTxBytes] kpA).db
      = Storage.get_vrf_public_key sampleDb := by
  exact ⟨by decide, by decide⟩

/-- Claim C4: refuted by the code.  `VrfEngine::verify` in
`crates/app/src/vrf.rs` is a stub that returns `Ok(true)` for every input:
here it accepts a proof that provably differs from the proof the keypair
produces over the message. -/
theorem c4_verify_accepts_forged_proof :
    VrfEngine.verify (VrfEngine.generate kpA).public_key [1, 2, 3]
        (9 :: ((VrfEngine.generate kpA).prove [1, 2, 3]).2)
        ((VrfEngine.generate kpA).prove [1, 2, 3]).1 = Except.ok true
  ∧ 9 :: ((VrfEngine.generate kpA).prove [1, 2, 3]).2
      ≠ ((VrfEngine.generate kpA).prove [1, 2, 3]).2 := by
  exact ⟨rfl, by decide⟩

/-- Claim C5: refuted by the code.  `InitChain` never consults existing
state: on a database with persisted height 5 it regenerates a keypair and
resets the persisted height to 0, so a second `InitChain` on a mid-chain
store does not leave the persisted state unchanged. -/
theorem c5_initChain_resets_prior_state :
    Storage.get_last_height midChainDb = Except.ok 5
  ∧ Storage.get_last_height (initChain midChainDb kpB).db = Except.ok 0 := by
  exact ⟨rfl, rfl⟩

/-- Claim C6: refuted by the code.  `MyChainApp::process_flip` feeds
`height.to_le_bytes()` as the block randomness, so the seed entering the VRF
message is derived from the height alone; it is not the chained value
`blake3(prev_block_hash || prev_seed)` that `VrfEngine::compute_block_random`
would give (the two differ already on genesis-shaped inputs). -/
theorem c6_block_seed_is_height_only :
    (MyChainApp.process_flip sampleTx 7 (VrfEngine.generate kpA) mychainChainId).vrf_message
        = VrfEngine.compute_flip_message mychainChainId 7 (leBytes 8 7) sampleTx.hash
            sampleTx.wallet sampleTx.nonce
  ∧ leBytes 8 7 ≠ VrfEngine.compute_block_random (List.replicate 32 0) (List.replicate 32 0) := by
  exact ⟨rfl, by decide⟩

/-- Claim C2: refuted by the code.  `CheckTx` rejects the zero-amount
transaction with code 1, but the block-execution path performs no amount or
wallet re-validation (`process_flip` goes straight to the VRF): replaying the
same bytes through `FinalizeBlock` creates a `BetRecord` with amount 0 and
persists it under `blake3(raw bytes)`. -/
theorem c2_zero_amount_settles_in_finalize :
    checkTx zeroAmountTx.to_bytes
        = { code := 1, log := "Invalid amount: must be greater than 0" }
  ∧ (finalizeBlock sampleDb 1 [zeroAmountTx.to_bytes] kpA).records
      = [MyChainApp.process_flip zeroAmountTx 1 (VrfEngine.generate kpA) mychainChainId]
  ∧ (MyChainApp.process_flip zeroAmountTx 1 (VrfEngine.generate kpA) mychainChainId).amount = 0
  ∧ Storage.get_bet (finalizeBlock sampleDb 1 [zeroAmountTx.to_bytes] kpA).db
        (blake3Hash zeroAmountTx.to_bytes)
      = Except.ok
          (some (MyChainApp.process_flip zeroAmountTx 1 (VrfEngine.generate kpA) mychainChainId)) := by
  refine ⟨by decide, by decide, rfl, by decide⟩

/-- Claim C7: `CheckTx` returns code 0 exactly when the bytes bincode-decode
to a transaction with positive amount and a wallet that is not all-zero;
otherwise it returns the distinct non-zero codes 1 (invalid amount),
2 (invalid wallet) and 3 (decode failure), each with its descriptive log.
The handler is a pure function of the transaction bytes: it opens no store
and stages no write. -/
theorem c7_checkTx_classification (bytes : List Nat) :
    ((checkTx bytes).code = 0 ↔
        ∃ tx, TxFlip.from_bytes bytes = some tx ∧ 0 < tx.amount
          ∧ tx.wallet ≠ List.replicate 32 0)
  ∧ (TxFlip.from_bytes bytes = none →
        checkTx bytes = { code := 3, log := "Failed to decode transaction" })
  ∧ (∀ tx, TxFlip.from_bytes bytes = some tx → tx.amount = 0 →
        checkTx bytes = { code := 1, log := "Invalid amount: must be greater than 0" })
  ∧ (∀ tx, TxFlip.from_bytes bytes = some tx → tx.amount ≠ 0 →
        tx.wallet = List.replicate 32 0 →
        checkTx bytes = { code := 2, log := "Invalid wallet: cannot be zero" })
  ∧ (∀ tx, TxFlip.from_bytes bytes = some tx → tx.amount ≠ 0 →
        tx.wallet ≠ List.replicate 32 0 →
        checkTx bytes = { code := 0, log := "Transaction valid" }) := by
  rcases hd : TxFlip.from_bytes bytes with _ | tx
  · refine ⟨by simp [checkTx, hd], fun _ => by simp [checkTx, hd], ?_, ?_, ?_⟩
    · intro tx htx; simp at htx
    · intro tx htx; simp at htx
    · intro tx htx; simp at htx
  · by_cases ha : tx.amount = 0
    · refine ⟨by simp [checkTx, hd, ha], ?_, ?_, ?_, ?_⟩
      · intro h0; simp at h0
      · intro tx' htx' _
        obtain rfl : tx = tx' := Option.some_inj.mp htx'
        simp [checkTx, hd, ha]
      · intro tx' htx' ha'
        obtain rfl : tx = tx' := Option.some_inj.mp htx'
        exact absurd ha ha'
      · intro tx' htx' ha'
        obtain rfl : tx = tx' := Option.some_inj.mp htx'
        exact absurd ha ha'
    · by_cases hw : tx.wallet = List.replicate 32 0
      · refine ⟨by simp [checkTx, hd, ha, hw], ?_, ?_, ?_, ?_⟩
        · intro h0; simp at h0
        · intro tx' htx' ha'
          obtain rfl : tx = tx' := Option.some_inj.mp htx'
          exact absurd ha' ha
        · intro tx' htx' _ _
          simp [checkTx, hd, ha, hw]
        · intro tx' htx' _ hw'
          obtain rfl : tx = tx' := Option.some_inj.mp htx'
          exact absurd hw hw'
      · refine ⟨?_, ?_, ?_, ?_, ?_⟩
        · simp only [checkTx, hd]
          rw [if_neg ha, if_neg hw]
          simp only [true_iff]
          exact ⟨tx, rfl, Nat.pos_of_ne_zero ha, hw⟩
        · intro h0; simp at h0
        · intro tx' htx' ha'
          obtain rfl : tx = tx' := Option.some_inj.mp htx'
          exact absurd ha' ha
        · intro tx' htx' _ hw'
          obtain rfl : tx = tx' := Option.some_inj.mp htx'
          exact absurd hw' hw
        · intro tx' htx' _ _
          simp only [checkTx, hd]
          rw [if_neg ha, if_neg hw]

/-- Witness for C7: the canonical scenario-1 transaction bytes are accepted
with code 0 and the empty byte string is rejected with the decode-failure
code 3. -/
theorem c7_witness :
    checkTx sampleTxBytes = { code := 0, log := "Transaction valid" }
  ∧ checkTx [] = { code := 3, log := "Failed to decode transaction" } :=
  ⟨(c7_checkTx_classification sampleTxBytes).2.2.2.2 sampleTx (by decide) (by decide) (by decide),
   (c7_checkTx_classification []).2.1 (by decide)⟩

/-- Claim C8: a transaction whose bytes fail to decode is skipped by
`FinalizeBlock` without aborting the block: the records and events produced
are exactly those of the same list with the bad transaction removed, and the
call still returns the block's state digest. -/
theorem c8_bad_tx_skipped (db : Db) (height : Nat) (k : ECVRFKeyPair)
    (pre post : List (List Nat)) (bad : List Nat)
    (hbad : TxFlip.from_bytes bad = none) :
    (finalizeBlock db height (pre ++ bad :: post) k).records
        = (finalizeBlock db height (pre ++ post) k).records
  ∧ (finalizeBlock db height (pre ++ bad :: post) k).events
        = (finalizeBlock db height (pre ++ post) k).events
  ∧ (finalizeBlock db height (pre ++ bad :: post) k).app_hash
        = Storage.compute_app_hash db height := by
  refine ⟨?_, ?_, rfl⟩
  · simp only [finalizeBlock, List.filterMap_append, List.filterMap_cons, hbad,
      Option.map_none']
  · simp only [finalizeBlock, List.filterMap_append, List.filterMap_cons, hbad,
      Option.map_none']

/-- Witness for C8: at height 1, a block containing the valid scenario-1
transaction followed by undecodable bytes produces the same records and
events as the block with the valid transaction alone, plus the digest. -/
theorem c8_witness :
    (finalizeBlock sampleDb 1 ([sampleTxBytes] ++ [1, 2, 3] :: []) kpA).records
        = (finalizeBlock sampleDb 1 ([sampleTxBytes] ++ []) kpA).records
  ∧ (finalizeBlock sampleDb 1 ([sampleTxBytes] ++ [1, 2, 3] :: []) kpA).events
        = (finalizeBlock sampleDb 1 ([sampleTxBytes] ++ []) kpA).events
  ∧ (finalizeBlock sampleDb 1 ([sampleTxBytes] ++ [1, 2, 3] :: []) kpA).app_hash
        = Storage.compute_app_hash sampleDb 1 :=
  c8_bad_tx_skipped sampleDb 1 kpA [sampleTxBytes] [] [1, 2, 3] (by decide)

/-- Claim C9 counterexample: append one trailing byte to the canonical
49-byte encoding.  bincode still decodes the bytes (trailing bytes are
allowed), `FinalizeBlock` stores the resulting record under
`blake3(raw 50 bytes)`, but the record's `tx_hash` field is blake3 of the
49-byte re-serialization, so the storage key differs from the stored
record's `tx_hash`. -/
theorem c9_trailing_byte_key_mismatch :
    TxFlip.from_bytes (sampleTxBytes ++ [0]) = some sampleTx
  ∧ Storage.get_bet (finalizeBlock sampleDb 1 [sampleTxBytes ++ [0]] kpA).db
        (blake3Hash (sampleTxBytes ++ [0]))
      = Except.ok
          (some (MyChainApp.process_flip sampleTx 1 (VrfEngine.generate kpA) mychainChainId))
  ∧ (MyChainApp.process_flip sampleTx 1 (VrfEngine.generate kpA) mychainChainId).tx_hash
      ≠ blake3Hash (sampleTxBytes ++ [0]) := by
  refine ⟨by decide, by decide, by decide⟩

/-- Claim C9, amended: the storage key `blake3(raw input bytes)` equals the
record's `tx_hash` field exactly for canonical inputs — those whose bincode
re-serialization is byte-identical to the input, i.e. the 49-byte encodings.
For such bytes the decoded transaction re-serializes to the input, so both
hashes are over the same byte string. -/
theorem c9_canonical_key_matches_txhash (height : Nat) (k : ECVRFKeyPair)
    (bytes : List Nat) (tx : TxFlip)
    (hdec : TxFlip.from_bytes bytes = some tx)
    (hlen : bytes.length = 49) (hwf : ∀ b ∈ bytes, b < 256) :
    (MyChainApp.process_flip tx height (VrfEngine.generate k) mychainChainId).tx_hash
        = blake3Hash bytes := by
  have h49 : ¬ bytes.length < 49 := by omega
  have hser : tx.to_bytes = bytes := by
    unfold TxFlip.from_bytes at hdec
    rw [if_neg h49] at hdec
    rcases bytes with _ | ⟨b0, rest⟩
    · simp at hlen
    · have hrest : rest.length = 48 := by simpa using hlen
      have hb0 : b0 < 256 := hwf b0 (List.mem_cons_self b0 rest)
      have hmem : ∀ b ∈ rest, b < 256 := fun b hb => hwf b (List.mem_cons_of_mem b0 hb)
      have htx' : tx =
          { version := b0, wallet := rest.take 32,
            amount := fromLeBytes ((rest.drop 32).take 8),
            nonce := fromLeBytes ((rest.drop 40).take 8) } :=
        (Option.some_inj.mp hdec).symm
      subst htx'
      have hl1 : ((rest.drop 32).take 8).length = 8 := by
        simp [List.length_take, List.length_drop, hrest]
      have e1 : leBytes 8 (fromLeBytes ((rest.drop 32).take 8)) = (rest.drop 32).take 8 := by
        have h0 := leBytes_fromLeBytes ((rest.drop 32).take 8) (fun b hb =>
          hmem b (List.mem_of_mem_drop (List.mem_of_mem_take hb)))
        rwa [hl1] at h0
      have hl2eq : (rest.drop 40).take 8 = rest.drop 40 := by
        apply List.take_of_length_le
        simp [List.length_drop, hrest]
      have hl2len : (rest.drop 40).length = 8 := by simp [List.length_drop, hrest]
      have e2 : leBytes 8 (fromLeBytes ((rest.drop 40).take 8)) = rest.drop 40 := by
        have h0 := leBytes_fromLeBytes (rest.drop 40)
          (fun b hb => hmem b (List.mem_of_mem_drop hb))
        rw [hl2len] at h0
        rw [hl2eq, h0]
      have hd40 : (rest.drop 32).drop 8 = rest.drop 40 := by rw [List.drop_drop]
      simp only [TxFlip.to_bytes]
      rw [Nat.mod_eq_of_lt hb0, e1, e2]
      rw [List.append_assoc, ← hd40, List.take_append_drop, List.take_append_drop]
  show blake3Hash tx.to_bytes = blake3Hash bytes
  rw [hser]

/-- Witness for C9's amended theorem: at the canonical scenario-1 bytes the
record's `tx_hash` equals blake3 of the raw input bytes. -/
theorem c9_witness :
    (MyChainApp.process_flip sampleTx 1 (VrfEngine.generate kpA) mychainChainId).tx_hash
        = blake3Hash sampleTxBytes :=
  c9_canonical_key_matches_txhash 1 kpA sampleTxBytes sampleTx (by decide) (by decide)
    (by decide)

/-- Claim C10: staging `store_bet(h, r)` into a batch, applying the batch,
and reading back with `get_bet(h)` returns `Some` of a record equal to `r`
in every field, for every well-formed record and every key, over any prior
database; and `get_bet` of a key that was never written returns `Ok(None)`
rather than an error. -/
theorem c10_store_bet_roundtrip :
    (∀ (db : Db) (r : BetRecord) (h : List Nat), r.wf →
        Storage.get_bet (Storage.apply_batch db (Storage.store_bet h r [])) h
          = Except.ok (some r))
  ∧ (∀ (db : Db) (h : List Nat), db "app" (Storage.betKey h) = none →
        Storage.get_bet db h = Except.ok none) := by
  constructor
  · intro db r h hr
    have hlook : Storage.apply_batch db (Storage.store_bet h r []) "app" (Storage.betKey h)
        = some r.to_bytes := by
      simp [Storage.apply_batch, Storage.store_bet, Db.insert]
    simp [Storage.get_bet, hlook, BetRecord.from_bytes_to_bytes r hr]
  · intro db h hnone
    simp [Storage.get_bet, hnone]

/-- Witness for C10: the concrete record round-trips through an empty store
under a concrete 32-byte key, and reading that key from the untouched empty
store yields `Ok(None)`. -/
theorem c10_witness :
    Storage.get_bet (Storage.apply_batch emptyDb
        (Storage.store_bet (List.replicate 32 9) sampleRecord [])) (List.replicate 32 9)
      = Except.ok (some sampleRecord)
  ∧ Storage.get_bet emptyDb (List.replicate 32 9) = Except.ok none :=
  ⟨c10_store_bet_roundtrip.1 emptyDb sampleRecord (List.replicate 32 9) (by decide),
   c10_store_bet_roundtrip.2 emptyDb (List.replicate 32 9) rfl⟩
